import Mathlib

/-!
# go_chat_server: the chat handler (`src/chat/handler.go`)

A shallow embedding of the websocket chat handler and the properties of its
login, post, roster and disconnect paths.

Modelling conventions

* Go `string` values are Lean `String`s; Go `len(s)` is the number of bytes of
  the UTF-8 encoding, `String.utf8ByteSize`.
* The `float64` enumeration constants (`iota + 1`) are the natural numbers
  they denote.
* `sync.Map` (token to `client`) is an association list. `Range` visits the
  list in order; Go leaves the order unspecified, and no statement below
  depends on it beyond the program order of consecutive calls.
* A `*websocket.Conn` is the natural number identifying the connection.
* Every call of `h.send(conn, msg)` is recorded, in program order, as the pair
  `(conn, msg)`. Whether `conn.WriteJSON` returns an error is decided by the
  environment: `broken` lists the connections whose write fails.
* `mapstructure.Decode` is an external library; its outcome is the `Option` of
  the decoded request (`none`: an error was returned).
-/

namespace chat

/-! ## Wire structures -/

/-- Login request from client (`loginReq`). -/
structure loginReq where
  Nickname : String
deriving DecidableEq, Repr

/-- Login response to client (`loginResp`). -/
structure loginResp where
  Token : String
  Status : Nat
deriving DecidableEq, Repr

/-- Post message request from client (`postMsgReq`). -/
structure postMsgReq where
  Token : String
  Msg : String
deriving DecidableEq, Repr

/-- Post message response to client (`postMsgResp`). -/
structure postMsgResp where
  Status : Nat
deriving DecidableEq, Repr

/-- Message to print in the client chat box (`chatMsgToClient`). -/
structure chatMsgToClient where
  Nickname : String
  Msg : String
  IsSystem : Bool
deriving DecidableEq, Repr

/-- Request for the list of online users (`onlineUsersReq`). -/
structure onlineUsersReq where
  Token : String
deriving DecidableEq, Repr

/-- List of online users sent to a client (`onlineUsers`). A nil `Users`
slice is the empty list. -/
structure onlineUsers where
  Status : Nat
  Users : List String
deriving DecidableEq, Repr

def typeLoginReq : Nat := 1
def typeLoginResp : Nat := 2
def typePostMessageReq : Nat := 3
def typePostMessageResp : Nat := 4
def typeChatMessageToClient : Nat := 5
def typeOnlineUsersReq : Nat := 6
def typeOnlineUsers : Nat := 7

def statusOk : Nat := 1
def statusInvalidToken : Nat := 2
def statusNameAlreadyTaken : Nat := 3
def statusNameIsEmpty : Nat := 4
def statusNameIsTooLong : Nat := 5
def statusMessageIsEmpty : Nat := 6
def statusMessageIsTooLong : Nat := 7

/-- The value handed to `h.send` (Go `any`): one of the four response
structures. The `Type` field of each structure is the constant the handler
always writes there, see `Payload.type`. -/
inductive Payload where
  | login (m : loginResp)
  | post (m : postMsgResp)
  | chat (m : chatMsgToClient)
  | users (m : onlineUsers)
deriving DecidableEq, Repr

/-- The `Type` discriminant written into each response. -/
def Payload.type : Payload → Nat
  | .login _ => typeLoginResp
  | .post _ => typePostMessageResp
  | .chat _ => typeChatMessageToClient
  | .users _ => typeOnlineUsers

/-- Go `len` of a string: the byte length of its UTF-8 encoding. -/
def len (s : String) : Nat := s.utf8ByteSize

/-! ## The registry -/

/-- Data stored per logged in client (`client`). -/
structure client where
  nickname : String
  conn : Nat
deriving DecidableEq, Repr

/-- Contents of the `sync.Map` of access token to client. -/
abbrev Clients := List (String × client)

/-- Method `sync.Map.Load`. -/
def Load (m : Clients) (key : String) : Option client :=
  (m.find? (fun e => e.1 == key)).map (fun e => e.2)

/-- Method `sync.Map.Delete`. -/
def Delete (m : Clients) (key : String) : Clients :=
  m.filter (fun e => e.1 != key)

/-- Method `sync.Map.Store`: the entry of `key`, if any, is replaced. -/
def Store (m : Clients) (key : String) (v : client) : Clients :=
  m.filter (fun e => e.1 != key) ++ [(key, v)]

/-- Chat handler (`Handler`); the logger and the write mutex carry no data. -/
structure Handler where
  clients : Clients
deriving DecidableEq, Repr

/-- Constructor `NewHandler`. -/
def NewHandler : Handler := ⟨[]⟩

/-- One recorded call `h.send(conn, msg)`. -/
abbrev Sent := Nat × Payload

/-- Method `Handler.send`: the recorded call. -/
def send (conn : Nat) (msg : Payload) : List Sent := [(conn, msg)]

/-- Method `Handler.hasNickname`. -/
def Handler.hasNickname (h : Handler) (nick : String) : Bool :=
  h.clients.any (fun e => e.2.nickname == nick)

/-- Method `Handler.loggedInUsers`. -/
def Handler.loggedInUsers (h : Handler) : List String :=
  h.clients.map (fun e => e.2.nickname)

/-- Method `Handler.broadcast`: one send per registered client. -/
def Handler.broadcast (h : Handler) (msg : Payload) : List Sent :=
  h.clients.map (fun e => (e.2.conn, msg))

/-- Method `Handler.nickname`. -/
def Handler.nickname (h : Handler) (token : String) : String :=
  match Load h.clients token with
  | some c => c.nickname
  | none => ""

/-- What a handler call leaves behind: the handler state and the sends it
issued, in program order. -/
structure Outcome where
  h : Handler
  sent : List Sent
deriving DecidableEq, Repr

/-- Method `Handler.handleDisconnect`. -/
def Handler.handleDisconnect (h : Handler) (token name : String) (loggedIn : Bool)
    (_conn : Nat) : Outcome :=
  if loggedIn then
    let h1 : Handler := ⟨Delete h.clients token⟩
    let s1 := h1.broadcast (.chat ⟨"", name ++ " left the chat", true⟩)
    let s2 := h1.broadcast (.users ⟨statusOk, h1.loggedInUsers⟩)
    ⟨h1, s1 ++ s2⟩
  else ⟨h, []⟩

/-- Method `Handler.handlePostMessageReq`. -/
def Handler.handlePostMessageReq (h : Handler) (broken : List Nat) (r : Option postMsgReq)
    (token name : String) (conn : Nat) : Outcome :=
  match r with
  | none => ⟨h, []⟩
  | some req =>
    if req.Msg == "" then ⟨h, []⟩
    else
      let hasToken := (Load h.clients token).isSome
      let status :=
        if !hasToken then statusInvalidToken
        else if len req.Msg == 0 then statusMessageIsEmpty
        else if len req.Msg > 2000 then statusMessageIsTooLong
        else statusOk
      let s1 := send conn (.post ⟨status⟩)
      if conn ∈ broken then ⟨h, s1⟩
      else if status != statusOk then ⟨h, s1⟩
      else ⟨h, s1 ++ h.broadcast (.chat ⟨name, req.Msg, false⟩)⟩

/-- Method `Handler.handleLoginReq`: the returned `loggedIn` and the effect. -/
def Handler.handleLoginReq (h : Handler) (r : Option loginReq) (token : String)
    (loggedIn : Bool) (conn : Nat) : Bool × Outcome :=
  match r with
  | none => (loggedIn, ⟨h, []⟩)
  | some req =>
    if h.hasNickname req.Nickname then
      (loggedIn, ⟨h, send conn (.login ⟨"", statusNameAlreadyTaken⟩)⟩)
    else if len req.Nickname == 0 then
      (loggedIn, ⟨h, send conn (.login ⟨"", statusNameIsEmpty⟩)⟩)
    else if len req.Nickname > 20 then
      (loggedIn, ⟨h, send conn (.login ⟨"", statusNameIsTooLong⟩)⟩)
    else
      let h1 : Handler := ⟨Store h.clients token ⟨req.Nickname, conn⟩⟩
      let s1 := h1.broadcast (.chat ⟨"", req.Nickname ++ " joined the chat", true⟩)
      let s2 := h1.broadcast (.users ⟨statusOk, h1.loggedInUsers⟩)
      (true, ⟨h1, s1 ++ s2 ++ send conn (.login ⟨token, statusOk⟩)⟩)

/-- Method `Handler.handleOnlineUsersReq`. -/
def Handler.handleOnlineUsersReq (h : Handler) (r : Option onlineUsersReq)
    (token _name : String) (conn : Nat) : Outcome :=
  match r with
  | none => ⟨h, []⟩
  | some _ =>
    let hasToken := (Load h.clients token).isSome
    let users := if hasToken then h.loggedInUsers else []
    ⟨h, send conn (.users ⟨if hasToken then statusOk else statusInvalidToken, users⟩)⟩

/-- What one iteration of the read loop of `Chat` gets from `conn.ReadJSON`
and the `switch` on `req["type"]`: a close or network error, a request of one
of the three known types with the outcome of its decoding, or anything else. -/
inductive Read where
  | closed
  | post (r : Option postMsgReq)
  | login (r : Option loginReq)
  | online (r : Option onlineUsersReq)
  | unknown
deriving DecidableEq, Repr

/-- State after one iteration of the read loop of `Chat`: the effect on the
handler, the loop variable `loggedIn`, and whether the loop goes on
(`false` after `break`). -/
structure Iter where
  out : Outcome
  loggedIn : Bool
  running : Bool
deriving DecidableEq, Repr

/-- One iteration of the loop of `Handler.Chat` for the connection `conn`
with access token `token`. -/
def Handler.Chat (h : Handler) (broken : List Nat) (token : String) (loggedIn : Bool)
    (conn : Nat) (rd : Read) : Iter :=
  let name := h.nickname token
  match rd with
  | .closed => ⟨h.handleDisconnect token name loggedIn conn, loggedIn, false⟩
  | .post r => ⟨h.handlePostMessageReq broken r token name conn, loggedIn, true⟩
  | .login r =>
    let res := h.handleLoginReq r token loggedIn conn
    ⟨res.2, res.1, true⟩
  | .online r => ⟨h.handleOnlineUsersReq r token name conn, loggedIn, true⟩
  | .unknown => ⟨⟨h, []⟩, loggedIn, true⟩

/-! ## The server: connections served one request at a time -/

/-- The shared handler together with the loop state of every `Chat`
goroutine: the connections whose `loggedIn` variable is true, the connections
whose loop has ended, and every send recorded so far. -/
structure Server where
  h : Handler
  loggedIn : List Nat
  closed : List Nat
  sent : List Sent
deriving DecidableEq, Repr

/-- One thing happening on the server: connection `conn` reads `rd`, while
the writes to the connections in `broken` fail. -/
structure Event where
  conn : Nat
  rd : Read
  broken : List Nat
deriving DecidableEq, Repr

/-- The server right after `NewHandler`, before any connection. -/
def Server.start : Server := ⟨NewHandler, [], [], []⟩

/-- The loop iteration of `Chat` that the event triggers; `tok c` is the
token `uuid.NewString()` gave connection `c`. -/
def Server.iter (tok : Nat → String) (s : Server) (e : Event) : Iter :=
  s.h.Chat e.broken (tok e.conn) (decide (e.conn ∈ s.loggedIn)) e.conn e.rd

/-- The server after the event; a connection whose loop has ended reads
nothing more. -/
def Server.step (tok : Nat → String) (s : Server) (e : Event) : Server :=
  if e.conn ∈ s.closed then s
  else
    let it := s.iter tok e
    ⟨it.out.h,
     if it.loggedIn && !decide (e.conn ∈ s.loggedIn) then e.conn :: s.loggedIn else s.loggedIn,
     if it.running then s.closed else e.conn :: s.closed,
     s.sent ++ it.out.sent⟩

/-- The server after a sequence of events, handled one after the other. -/
def Server.run (tok : Nat → String) (es : List Event) : Server :=
  es.foldl (Server.step tok) Server.start

/-! ## Concurrent logins: `handleLoginReq` split at its accesses to the map -/

/-- Where a goroutine stands inside `handleLoginReq`: before the call of
`hasNickname`, after it with the value it returned, or past the `if` chain
with the response it built (the map written in the same step when the
status is ok). -/
inductive LoginPc where
  | start
  | checked (has : Bool)
  | done (resp : loginResp)
deriving DecidableEq, Repr

/-- A goroutine handling one login request. -/
structure LoginTask where
  token : String
  conn : Nat
  nick : String
  pc : LoginPc
deriving DecidableEq, Repr

/-- The next atomic step of a login goroutine on the shared map: first the
name check, then the `if` chain of `handleLoginReq` with `clients.Store` in
its last branch. The broadcasts and the reply do not write the map and are
left out. -/
def LoginTask.step (m : Clients) (t : LoginTask) : Clients × LoginTask :=
  match t.pc with
  | .start => (m, ⟨t.token, t.conn, t.nick, .checked ((⟨m⟩ : Handler).hasNickname t.nick)⟩)
  | .checked has =>
    if has then (m, ⟨t.token, t.conn, t.nick, .done ⟨"", statusNameAlreadyTaken⟩⟩)
    else if len t.nick == 0 then (m, ⟨t.token, t.conn, t.nick, .done ⟨"", statusNameIsEmpty⟩⟩)
    else if len t.nick > 20 then (m, ⟨t.token, t.conn, t.nick, .done ⟨"", statusNameIsTooLong⟩⟩)
    else (Store m t.token ⟨t.nick, t.conn⟩, ⟨t.token, t.conn, t.nick, .done ⟨t.token, statusOk⟩⟩)
  | .done _ => (m, t)

/-- Runs the goroutines under a schedule: each number names the goroutine
that takes its next step. -/
def runLogins (m : Clients) (ts : List LoginTask) : List Nat → Clients × List LoginTask
  | [] => (m, ts)
  | i :: sched =>
    match ts.get? i with
    | none => runLogins m ts sched
    | some t =>
      let r := t.step m
      runLogins r.1 (ts.set i r.2) sched

/-! ## Observations on recorded sends -/

/-- The send carries a login response. -/
def isLoginResp : Sent → Bool
  | (_, .login _) => true
  | _ => false

/-- The send carries a post status response. -/
def isPostResp : Sent → Bool
  | (_, .post _) => true
  | _ => false

/-- The send carries a chat message. -/
def isChatMsg : Sent → Bool
  | (_, .chat _) => true
  | _ => false

/-- The send carries a list of online users. -/
def isOnlineUsers : Sent → Bool
  | (_, .users _) => true
  | _ => false

/-- The nicknames held in the map. -/
def names (m : Clients) : List String := m.map (fun e => e.2.nickname)

/-- The tokens that are keys of the map. -/
def keys (m : Clients) : List String := m.map (fun e => e.1)

/-- The registry invariant: keys are distinct (it is a map), nicknames are
distinct, and every nickname is non-empty and at most 20 bytes long. -/
def Inv (m : Clients) : Prop :=
  (keys m).Nodup ∧ (names m).Nodup ∧ ∀ e ∈ m, e.2.nickname ≠ "" ∧ len e.2.nickname ≤ 20

/-- What holds of every server state: the registry invariant; every entry
was stored by the connection whose token is its key, and that connection has
`loggedIn` true; a running connection with `loggedIn` true has an entry. -/
def SInv (tok : Nat → String) (s : Server) : Prop :=
  Inv s.h.clients ∧
    (∀ e ∈ s.h.clients, tok e.2.conn = e.1 ∧ e.2.conn ∈ s.loggedIn) ∧
    (Function.Injective tok → ∀ c ∈ s.loggedIn, c ∉ s.closed → tok c ∈ keys s.h.clients)

/-- The login status in the words of the specification: name taken first,
then name empty, then name too long (more than 20), otherwise ok. -/
def specLoginStatus (m : Clients) (nick : String) : Nat :=
  if ∃ e ∈ m, e.2.nickname = nick then statusNameAlreadyTaken
  else if nick = "" then statusNameIsEmpty
  else if 20 < len nick then statusNameIsTooLong
  else statusOk

/-- The post status in the words of the specification: the token must
resolve, then the body must be non-empty, then at most 2000 long, otherwise
ok. -/
def specPostStatus (m : Clients) (token body : String) : Nat :=
  if Load m token = none then statusInvalidToken
  else if body = "" then statusMessageIsEmpty
  else if 2000 < len body then statusMessageIsTooLong
  else statusOk

/-- A registry with one client, and one with two. -/
def oneClient : Handler := ⟨[("t1", ⟨"alice", 1⟩)]⟩

def twoClients : Handler := ⟨[("t1", ⟨"alice", 1⟩), ("t2", ⟨"bob", 2⟩)]⟩

/-- A body of 1001 two-byte characters. -/
def wideBody : String := String.mk (List.replicate 1001 'é')

/-- A name of 20 two-byte characters. -/
def wideName : String := String.mk (List.replicate 20 'é')

/-- Two logins handled one after the other: alice on connection 0, bob on
connection 1. -/
def twoLogins : List Event :=
  [⟨0, .login (some ⟨"alice"⟩), []⟩, ⟨1, .login (some ⟨"bob"⟩), []⟩]

/-- The handler after two login goroutines, both proposing "bob" on an
empty registry, have each checked the name before either stored. -/
def raced : Handler :=
  ⟨(runLogins [] [⟨"t1", 1, "bob", .start⟩, ⟨"t2", 2, "bob", .start⟩] [0, 1, 0, 1]).1⟩

/-- A name of 21 one-byte characters, and one of 20. -/
def name21 : String := "abcdefghijklmnopqrstu"

def name20 : String := "abcdefghijklmnopqrst"

/-- Sample tokens, one per connection: `c + 1` letters `t`. -/
def sampleTok (c : Nat) : String := String.mk (List.replicate (c + 1) 't')

/-! ## Strings and the map -/

theorem utf8go_ge (l : List Char) : l.length ≤ String.utf8ByteSize.go l := by
  induction l with
  | nil => simp [String.utf8ByteSize.go]
  | cons c cs ih =>
    have := Char.utf8Size_pos c
    simp only [String.utf8ByteSize.go, List.length_cons]
    omega

/-- A string has at least as many bytes as characters. -/
theorem length_le_len (s : String) : s.length ≤ len s := by
  cases s with
  | mk l => exact utf8go_ge l

theorem utf8go_eq_length_iff (l : List Char) :
    String.utf8ByteSize.go l = l.length ↔ ∀ c ∈ l, c.utf8Size = 1 := by
  induction l with
  | nil => simp [String.utf8ByteSize.go]
  | cons c cs ih =>
    have h1 := Char.utf8Size_pos c
    have h2 := utf8go_ge cs
    simp only [String.utf8ByteSize.go, List.length_cons, List.mem_cons, forall_eq_or_imp]
    rw [← ih]
    omega

/-- The byte length equals the number of characters exactly when every
character is encoded in one byte. -/
theorem len_eq_length_iff (s : String) : len s = s.length ↔ ∀ c ∈ s.data, c.utf8Size = 1 := by
  cases s with
  | mk l => exact utf8go_eq_length_iff l

theorem len_eq_zero_iff (s : String) : len s = 0 ↔ s = "" := by
  constructor
  · intro h
    have h1 := length_le_len s
    have h2 : s.length = 0 := by omega
    cases s with
    | mk l =>
      have : l = [] := List.length_eq_zero.mp h2
      subst this
      rfl
  · rintro rfl
    rfl

theorem utf8go_replicate (n : Nat) (c : Char) :
    String.utf8ByteSize.go (List.replicate n c) = n * c.utf8Size := by
  induction n with
  | zero => simp [String.utf8ByteSize.go]
  | succ k ih =>
    simp only [List.replicate_succ, String.utf8ByteSize.go, ih]
    ring

theorem len_replicate (n : Nat) (c : Char) :
    len (String.mk (List.replicate n c)) = n * c.utf8Size := utf8go_replicate n c

theorem hasNickname_iff (h : Handler) (nick : String) :
    h.hasNickname nick = true ↔ ∃ e ∈ h.clients, e.2.nickname = nick := by
  simp [Handler.hasNickname, List.any_eq_true]

theorem hasNickname_false_iff (h : Handler) (nick : String) :
    h.hasNickname nick = false ↔ nick ∉ names h.clients := by
  rw [← Bool.not_eq_true, hasNickname_iff]
  simp [names]

theorem Load_isSome_iff (m : Clients) (k : String) :
    (Load m k).isSome = true ↔ k ∈ keys m := by
  induction m with
  | nil => simp [Load, keys]
  | cons e m ih =>
    by_cases hk : e.1 = k
    · simp [Load, keys, List.find?_cons, hk]
    · have hk2 : ¬ k = e.1 := fun h => hk h.symm
      simp [Load, keys, List.find?_cons, hk, hk2]

theorem Load_eq_none_iff (m : Clients) (k : String) :
    Load m k = none ↔ k ∉ keys m := by
  rw [← Load_isSome_iff]
  cases Load m k <;> simp

theorem Load_mem (m : Clients) (k : String) (c : client) (h : Load m k = some c) :
    (k, c) ∈ m := by
  induction m with
  | nil => simp [Load] at h
  | cons e m ih =>
    by_cases hk : e.1 = k
    · simp [Load, List.find?_cons, hk] at h
      subst hk
      subst h
      simp
    · have hk2 : (e.1 == k) = false := by simpa using hk
      simp only [Load, List.find?_cons, hk2] at h
      exact List.mem_cons_of_mem _ (ih h)

theorem mem_Delete (m : Clients) (k : String) (e : String × client) :
    e ∈ Delete m k ↔ e ∈ m ∧ e.1 ≠ k := by
  simp [Delete]

theorem mem_Store (m : Clients) (k : String) (v : client) (e : String × client) :
    e ∈ Store m k v ↔ (e ∈ m ∧ e.1 ≠ k) ∨ e = (k, v) := by
  simp [Store]

theorem Load_Delete (m : Clients) (k : String) : Load (Delete m k) k = none := by
  rw [Load_eq_none_iff]
  simp [keys, Delete]

theorem Load_Store (m : Clients) (k : String) (v : client) : Load (Store m k v) k = some v := by
  induction m with
  | nil => simp [Store, Load]
  | cons e m ih =>
    by_cases hk : e.1 = k
    · simpa [Store, List.filter_cons, hk] using ih
    · simp [Store, Load, List.filter_cons, List.find?_cons, hk]

theorem keys_Delete (m : Clients) (k : String) : keys (Delete m k) = (keys m).filter (fun x => x != k) := by
  induction m with
  | nil => rfl
  | cons e m ih =>
    by_cases hk : e.1 = k
    · simpa [Delete, keys, List.filter_cons, hk] using ih
    · simpa [Delete, keys, List.filter_cons, hk] using ih

theorem names_Delete_sublist (m : Clients) (k : String) :
    (names (Delete m k)).Sublist (names m) :=
  List.Sublist.map _ (List.filter_sublist _)

theorem Inv_Delete (m : Clients) (k : String) (h : Inv m) : Inv (Delete m k) := by
  obtain ⟨hk, hn, hb⟩ := h
  refine ⟨?_, hn.sublist (names_Delete_sublist m k), ?_⟩
  · rw [keys_Delete]
    exact hk.filter _
  · intro e he
    exact hb e ((mem_Delete m k e).mp he).1

theorem Inv_Store (m : Clients) (k : String) (v : client) (h : Inv m)
    (hfresh : v.nickname ∉ names m) (hne : v.nickname ≠ "") (hlen : len v.nickname ≤ 20) :
    Inv (Store m k v) := by
  obtain ⟨hk, hn, hb⟩ := Inv_Delete m k h
  refine ⟨?_, ?_, ?_⟩
  · have : keys (Store m k v) = keys (Delete m k) ++ [k] := by simp [Store, Delete, keys]
    rw [this, List.nodup_append]
    refine ⟨hk, List.nodup_singleton _, ?_⟩
    intro a ha hb2
    have : a = k := by simpa using hb2
    subst this
    rw [keys_Delete] at ha
    simp at ha
  · have : names (Store m k v) = names (Delete m k) ++ [v.nickname] := by
      simp [Store, Delete, names]
    rw [this, List.nodup_append]
    refine ⟨hn, List.nodup_singleton _, ?_⟩
    intro a ha hb2
    have : a = v.nickname := by simpa using hb2
    subst this
    exact hfresh ((names_Delete_sublist m k).subset ha)
  · intro e he
    rcases (mem_Store m k v e).mp he with h1 | h1
    · exact h.2.2 e h1.1
    · subst h1
      exact ⟨hne, hlen⟩


theorem handleLoginReq_cases (h : Handler) (nick token : String) (loggedIn : Bool) (conn : Nat) :
    h.handleLoginReq (some ⟨nick⟩) token loggedIn conn =
      if nick ∈ names h.clients then
        (loggedIn, ⟨h, [(conn, .login ⟨"", statusNameAlreadyTaken⟩)]⟩)
      else if nick = "" then (loggedIn, ⟨h, [(conn, .login ⟨"", statusNameIsEmpty⟩)]⟩)
      else if 20 < len nick then (loggedIn, ⟨h, [(conn, .login ⟨"", statusNameIsTooLong⟩)]⟩)
      else
        (true, ⟨⟨Store h.clients token ⟨nick, conn⟩⟩,
          (Store h.clients token ⟨nick, conn⟩).map
              (fun e => (e.2.conn, Payload.chat ⟨"", nick ++ " joined the chat", true⟩)) ++
            (Store h.clients token ⟨nick, conn⟩).map
              (fun e => (e.2.conn, Payload.users
                ⟨statusOk, names (Store h.clients token ⟨nick, conn⟩)⟩)) ++
            [(conn, .login ⟨token, statusOk⟩)]⟩) := by
  by_cases h1 : nick ∈ names h.clients
  · have hb : h.hasNickname nick = true := by
      by_contra hc
      exact ((hasNickname_false_iff h nick).mp (by simpa using hc)) h1
    rw [if_pos h1]
    simp only [Handler.handleLoginReq, hb, if_true, send]
  · have hb : h.hasNickname nick = false := (hasNickname_false_iff h nick).mpr h1
    rw [if_neg h1]
    by_cases h2 : nick = ""
    · have hz : (len nick == 0) = true := by
        rw [beq_iff_eq]; exact (len_eq_zero_iff nick).mpr h2
      rw [if_pos h2]
      simp only [Handler.handleLoginReq, hb, hz, if_true, send, Bool.false_eq_true, if_false]
    · have hz : (len nick == 0) = false := by
        rw [beq_eq_false_iff_ne]; exact fun hc => h2 ((len_eq_zero_iff nick).mp hc)
      rw [if_neg h2]
      by_cases h3 : 20 < len nick
      · rw [if_pos h3]
        simp only [Handler.handleLoginReq, hb, hz, send, Bool.false_eq_true, if_false,
          gt_iff_lt, h3, if_true]
      · rw [if_neg h3]
        simp only [Handler.handleLoginReq, hb, hz, send, Bool.false_eq_true, if_false,
          gt_iff_lt, h3]
        rfl

theorem specLoginStatus_cases (m : Clients) (nick : String) :
    specLoginStatus m nick =
      if nick ∈ names m then statusNameAlreadyTaken
      else if nick = "" then statusNameIsEmpty
      else if 20 < len nick then statusNameIsTooLong
      else statusOk := by
  unfold specLoginStatus
  have : (∃ e ∈ m, e.2.nickname = nick) ↔ nick ∈ names m := by simp [names]
  simp only [this]

theorem Store_ne_self (m : Clients) (k : String) (v : client) (h : v.nickname ∉ names m) :
    Store m k v ≠ m := by
  intro hc
  apply h
  have : (k, v) ∈ Store m k v := (mem_Store m k v _).mpr (Or.inr rfl)
  rw [hc] at this
  exact List.mem_map.mpr ⟨(k, v), this, rfl⟩

theorem filter_isLoginResp_map_chat (m : Clients) (c : chatMsgToClient) :
    (m.map (fun e => (e.2.conn, Payload.chat c))).filter isLoginResp = [] := by
  induction m with
  | nil => rfl
  | cons e m ih => simpa [List.filter_cons, isLoginResp] using ih

theorem filter_isLoginResp_map_users (m : Clients) (c : onlineUsers) :
    (m.map (fun e => (e.2.conn, Payload.users c))).filter isLoginResp = [] := by
  induction m with
  | nil => rfl
  | cons e m ih => simpa [List.filter_cons, isLoginResp] using ih

/-- C1: for every registry and every decoded nickname, `handleLoginReq` sends
exactly one login response, to the caller, and its status follows the
precedence name taken, name empty, name too long (more than 20 in Go `len`),
ok; the registry changes, gaining the entry token to nickname, exactly when
the status is ok. -/
theorem handleLoginReq_status_precedence (h : Handler) (nick token : String)
    (loggedIn : Bool) (conn : Nat) :
    ((h.handleLoginReq (some ⟨nick⟩) token loggedIn conn).2.sent.filter isLoginResp =
        [(conn, .login ⟨if specLoginStatus h.clients nick = statusOk then token else "",
            specLoginStatus h.clients nick⟩)]) ∧
      specLoginStatus h.clients nick ∈
        [statusNameAlreadyTaken, statusNameIsEmpty, statusNameIsTooLong, statusOk] ∧
      (h.handleLoginReq (some ⟨nick⟩) token loggedIn conn).2.h.clients =
        (if specLoginStatus h.clients nick = statusOk then Store h.clients token ⟨nick, conn⟩
          else h.clients) ∧
      (specLoginStatus h.clients nick = statusOk ↔
        ((h.handleLoginReq (some ⟨nick⟩) token loggedIn conn).2.h.clients ≠ h.clients ∧
          Load (h.handleLoginReq (some ⟨nick⟩) token loggedIn conn).2.h.clients token =
            some ⟨nick, conn⟩)) := by
  rw [handleLoginReq_cases, specLoginStatus_cases]
  by_cases h1 : nick ∈ names h.clients
  · simp only [if_pos h1]
    simp [isLoginResp, statusOk, statusNameAlreadyTaken]
  · simp only [if_neg h1]
    by_cases h2 : nick = ""
    · simp only [if_pos h2]
      simp [isLoginResp, statusOk, statusNameIsEmpty]
    · simp only [if_neg h2]
      by_cases h3 : 20 < len nick
      · simp only [if_pos h3]
        simp [isLoginResp, statusOk, statusNameIsTooLong]
      · have hne := Store_ne_self h.clients token ⟨nick, conn⟩ h1
        simp only [if_neg h3]
        simp [isLoginResp, List.filter_append, filter_isLoginResp_map_chat,
          filter_isLoginResp_map_users, Load_Store, hne]


theorem handlePostMessageReq_cases (h : Handler) (broken : List Nat) (req : postMsgReq)
    (token name : String) (conn : Nat) :
    h.handlePostMessageReq broken (some req) token name conn =
      if req.Msg = "" then ⟨h, []⟩
      else if Load h.clients token = none then ⟨h, [(conn, .post ⟨statusInvalidToken⟩)]⟩
      else if 2000 < len req.Msg then ⟨h, [(conn, .post ⟨statusMessageIsTooLong⟩)]⟩
      else if conn ∈ broken then ⟨h, [(conn, .post ⟨statusOk⟩)]⟩
      else ⟨h, (conn, .post ⟨statusOk⟩) ::
        h.clients.map (fun e => (e.2.conn, Payload.chat ⟨name, req.Msg, false⟩))⟩ := by
  by_cases h0 : req.Msg = ""
  · have hb : (req.Msg == "") = true := by rw [beq_iff_eq]; exact h0
    rw [if_pos h0]
    simp only [Handler.handlePostMessageReq, hb, if_true]
  · have hb : (req.Msg == "") = false := by rw [beq_eq_false_iff_ne]; exact h0
    have hz : (len req.Msg == 0) = false := by
      rw [beq_eq_false_iff_ne]; exact fun hc => h0 ((len_eq_zero_iff _).mp hc)
    rw [if_neg h0]
    by_cases h1 : Load h.clients token = none
    · rw [if_pos h1]
      by_cases hbr : conn ∈ broken
      · simp [Handler.handlePostMessageReq, hb, h1, send, hbr]
      · simp [Handler.handlePostMessageReq, hb, h1, send, hbr, statusInvalidToken, statusOk]
    · rw [if_neg h1]
      obtain ⟨c, hc⟩ := Option.ne_none_iff_exists'.mp h1
      by_cases h2 : 2000 < len req.Msg
      · rw [if_pos h2]
        by_cases hbr : conn ∈ broken
        · simp [Handler.handlePostMessageReq, hb, hc, hz, send, hbr, h2]
        · simp [Handler.handlePostMessageReq, hb, hc, hz, send, hbr, h2,
            statusMessageIsTooLong, statusOk]
      · rw [if_neg h2]
        by_cases hbr : conn ∈ broken
        · simp [Handler.handlePostMessageReq, hb, hc, hz, send, hbr, h2]
        · simp [Handler.handlePostMessageReq, hb, hc, hz, send, hbr, h2, Handler.broadcast]

theorem handleOnlineUsersReq_cases (h : Handler) (req : onlineUsersReq)
    (token name : String) (conn : Nat) :
    h.handleOnlineUsersReq (some req) token name conn =
      ⟨h, [(conn, .users (if Load h.clients token = none then ⟨statusInvalidToken, []⟩
        else ⟨statusOk, names h.clients⟩))]⟩ := by
  cases hl : Load h.clients token with
  | none => simp [Handler.handleOnlineUsersReq, hl, send]
  | some c => simp [Handler.handleOnlineUsersReq, hl, send, Handler.loggedInUsers, names]

theorem handleDisconnect_cases (h : Handler) (token name : String) (loggedIn : Bool)
    (conn : Nat) :
    h.handleDisconnect token name loggedIn conn =
      if loggedIn = true then
        ⟨⟨Delete h.clients token⟩,
          (Delete h.clients token).map
              (fun e => (e.2.conn, Payload.chat ⟨"", name ++ " left the chat", true⟩)) ++
            (Delete h.clients token).map
              (fun e => (e.2.conn, Payload.users ⟨statusOk, names (Delete h.clients token)⟩))⟩
      else ⟨h, []⟩ := rfl

/-- A post with an empty body is dropped before any reply is built: nothing
is sent and nothing changes. -/
theorem handlePostMessageReq_empty_body (h : Handler) (broken : List Nat)
    (tk token name : String) (conn : Nat) :
    h.handlePostMessageReq broken (some ⟨tk, ""⟩) token name conn = ⟨h, []⟩ := by
  rw [handlePostMessageReq_cases]
  simp

theorem len_wideBody : len wideBody = 2002 := by
  unfold wideBody
  rw [len_replicate]
  have : Char.utf8Size 'é' = 2 := by decide
  rw [this]

theorem wideBody_ne_empty : wideBody ≠ "" := by
  intro hc
  have h1 := len_wideBody
  rw [hc] at h1
  have h2 : len "" = 0 := rfl
  omega


theorem filter_isPostResp_map_chat (m : Clients) (c : chatMsgToClient) :
    (m.map (fun e => (e.2.conn, Payload.chat c))).filter isPostResp = [] := by
  induction m with
  | nil => rfl
  | cons e m ih => simpa [List.filter_cons, isPostResp] using ih

theorem filter_isChatMsg_map_chat (m : Clients) (c : chatMsgToClient) :
    (m.map (fun e => (e.2.conn, Payload.chat c))).filter isChatMsg =
      m.map (fun e => (e.2.conn, Payload.chat c)) := by
  induction m with
  | nil => rfl
  | cons e m ih => simpa [List.filter_cons, isChatMsg] using ih

/-- C3, as amended: for every decoded post request with a non-empty body,
`handlePostMessageReq` sends exactly one post status reply, to the poster,
whether or not the write succeeds; its status is invalid token if the token of
the connection has no registry entry, otherwise message too long if the body
has more than 2000 bytes, otherwise ok. -/
theorem handlePostMessageReq_reply (h : Handler) (broken : List Nat) (req : postMsgReq)
    (token name : String) (conn : Nat) (hbody : req.Msg ≠ "") :
    (h.handlePostMessageReq broken (some req) token name conn).sent.filter isPostResp =
        [(conn, .post ⟨specPostStatus h.clients token req.Msg⟩)] ∧
      specPostStatus h.clients token req.Msg =
        (if Load h.clients token = none then statusInvalidToken
          else if 2000 < len req.Msg then statusMessageIsTooLong else statusOk) := by
  rw [handlePostMessageReq_cases]
  unfold specPostStatus
  simp only [if_neg hbody]
  refine ⟨?_, trivial⟩
  by_cases h1 : Load h.clients token = none
  · simp [h1, isPostResp]
  · simp only [if_neg h1]
    by_cases h2 : 2000 < len req.Msg
    · simp [h2, isPostResp]
    · simp only [if_neg h2]
      by_cases hbr : conn ∈ broken
      · simp [hbr, isPostResp]
      · simp [hbr, isPostResp, List.filter_cons, filter_isPostResp_map_chat]

/-- Witness of C3 as amended: alice posts "hi" and gets the one reply, ok. -/
theorem handlePostMessageReq_reply_witness :
    (oneClient.handlePostMessageReq [] (some ⟨"t1", "hi"⟩) "t1" "alice" 1).sent.filter
        isPostResp = [(1, .post ⟨statusOk⟩)] :=
  (handlePostMessageReq_reply oneClient [] ⟨"t1", "hi"⟩ "t1" "alice" 1 (by decide)).1

/-- C3 fails as stated: a body of 1001 characters, far below 2000, sent by a
logged in client is answered message too long, because it has 2002 bytes;
and a post with the empty body, from the same client, gets no reply at all. -/
theorem handlePostMessageReq_wide_and_empty_body :
    wideBody.length = 1001 ∧
      (oneClient.handlePostMessageReq [] (some ⟨"t1", wideBody⟩) "t1" "alice" 1).sent =
        [(1, .post ⟨statusMessageIsTooLong⟩)] ∧
      (oneClient.handlePostMessageReq [] (some ⟨"t1", ""⟩) "t1" "alice" 1).sent = [] := by
  refine ⟨?_, ?_, ?_⟩
  · show (List.replicate 1001 'é').length = 1001
    rw [List.length_replicate]
  · rw [handlePostMessageReq_cases]
    have h1 : Load oneClient.clients "t1" ≠ none := by decide
    have h2 : 2000 < len wideBody := by rw [len_wideBody]; omega
    simp only [if_neg wideBody_ne_empty, if_neg h1, if_pos h2]
  · rw [handlePostMessageReq_empty_body]

theorem Chat_post (h : Handler) (broken : List Nat) (r : Option postMsgReq) (token : String)
    (loggedIn : Bool) (conn : Nat) :
    h.Chat broken token loggedIn conn (.post r) =
      ⟨h.handlePostMessageReq broken r token (h.nickname token) conn, loggedIn, true⟩ := rfl

/-- C4, as amended: a post request never changes the registry. When the
reply with status ok is sent and its write succeeds, the handler sends one
chat message per registry entry, the entry of the poster included, each with
the registered nickname of the poster, the body unchanged and `IsSystem`
false. When the status is not ok, or the write of the reply fails, no chat
message is sent. -/
theorem Chat_post_broadcast (h : Handler) (broken : List Nat) (req : postMsgReq)
    (token : String) (loggedIn : Bool) (conn : Nat) :
    (h.Chat broken token loggedIn conn (.post (some req))).out.h = h ∧
      ((conn, Payload.post ⟨statusOk⟩) ∈
          (h.Chat broken token loggedIn conn (.post (some req))).out.sent ↔
        Load h.clients token ≠ none ∧ req.Msg ≠ "" ∧ len req.Msg ≤ 2000) ∧
      ((conn, Payload.post ⟨statusOk⟩) ∈
          (h.Chat broken token loggedIn conn (.post (some req))).out.sent →
        conn ∉ broken →
        (h.Chat broken token loggedIn conn (.post (some req))).out.sent =
            (conn, Payload.post ⟨statusOk⟩) ::
              h.clients.map (fun e => (e.2.conn, Payload.chat ⟨h.nickname token, req.Msg, false⟩)) ∧
          ∃ c, (token, c) ∈ h.clients ∧ Load h.clients token = some c ∧
            h.nickname token = c.nickname) ∧
      (¬ ((conn, Payload.post ⟨statusOk⟩) ∈
            (h.Chat broken token loggedIn conn (.post (some req))).out.sent ∧ conn ∉ broken) →
        (h.Chat broken token loggedIn conn (.post (some req))).out.sent.filter isChatMsg
          = []) := by
  rw [Chat_post, handlePostMessageReq_cases]
  by_cases h0 : req.Msg = ""
  · simp [h0]
  · simp only [if_neg h0]
    by_cases h1 : Load h.clients token = none
    · simp [h1, statusInvalidToken, statusOk, isChatMsg]
    · simp only [if_neg h1]
      by_cases h2 : 2000 < len req.Msg
      · simp [h1, h2, statusMessageIsTooLong, statusOk, isChatMsg]
      · simp only [if_neg h2]
        obtain ⟨c, hc⟩ := Option.ne_none_iff_exists'.mp h1
        have hnick : h.nickname token = c.nickname := by simp [Handler.nickname, hc]
        by_cases hbr : conn ∈ broken
        · simp [h0, h1, hbr, isChatMsg]
          omega
        · simp only [if_neg hbr]
          refine ⟨trivial, ?_, ?_, ?_⟩
          · simp [h0, h1]
            omega
          · intro _ _
            exact ⟨trivial, c, Load_mem _ _ _ hc, hc, hnick⟩
          · intro hn
            exact absurd ⟨List.mem_cons_self _ _, hbr⟩ hn

/-- Witness of C4 as amended: alice posts "hi" to a registry of two. -/
theorem Chat_post_broadcast_witness :
    (twoClients.Chat [] "t1" true 1 (.post (some ⟨"t1", "hi"⟩))).out.sent =
        [(1, .post ⟨statusOk⟩), (1, .chat ⟨"alice", "hi", false⟩),
          (2, .chat ⟨"alice", "hi", false⟩)] ∧
      (twoClients.Chat [1] "t1" true 1 (.post (some ⟨"t1", "hi"⟩))).out.sent.filter isChatMsg
        = [] :=
  ⟨((Chat_post_broadcast twoClients [] ⟨"t1", "hi"⟩ "t1" true 1).2.2.1 (by decide)
      (by decide)).1,
    (Chat_post_broadcast twoClients [1] ⟨"t1", "hi"⟩ "t1" true 1).2.2.2 (by decide)⟩

/-- C4 fails as stated: the status of the post is ok, but the write of the
reply to the poster fails and the handler returns before the broadcast, so
no client is sent the chat message. -/
theorem Chat_post_no_broadcast_after_failed_reply :
    (twoClients.Chat [1] "t1" true 1 (.post (some ⟨"t1", "hi"⟩))).out.sent =
      [(1, .post ⟨statusOk⟩)] := by
  decide


theorem names_Store (m : Clients) (k : String) (v : client) :
    names (Store m k v) = names (Delete m k) ++ [v.nickname] := by
  simp [Store, Delete, names]

/-- C8, as amended: post and roster requests are authorized by the token of
the connection they arrive on, and the token field of the request is not
read. On a connection whose token is no key of the registry a post with a
non-empty body is answered invalid token without any broadcast, and a roster
request is answered invalid token with an empty list; on a connection whose
token is a key, a roster request is answered ok with all registered
nicknames. The roster handler sends that one reply only, and neither handler
changes the registry. -/
theorem requests_authorized_by_connection_token (h : Handler) (broken : List Nat)
    (p : postMsgReq) (q : onlineUsersReq) (token name : String) (conn : Nat) :
    (Load h.clients token = none → p.Msg ≠ "" →
        (h.handlePostMessageReq broken (some p) token name conn).sent =
          [(conn, .post ⟨statusInvalidToken⟩)]) ∧
      (Load h.clients token = none →
        (h.handleOnlineUsersReq (some q) token name conn).sent =
          [(conn, .users ⟨statusInvalidToken, []⟩)]) ∧
      (Load h.clients token ≠ none →
        (h.handleOnlineUsersReq (some q) token name conn).sent =
          [(conn, .users ⟨statusOk, names h.clients⟩)]) ∧
      (h.handlePostMessageReq broken (some p) token name conn).h = h ∧
      (h.handleOnlineUsersReq (some q) token name conn).h = h ∧
      (∀ tk, h.handlePostMessageReq broken (some ⟨tk, p.Msg⟩) token name conn =
        h.handlePostMessageReq broken (some p) token name conn) ∧
      (∀ tk, h.handleOnlineUsersReq (some ⟨tk⟩) token name conn =
        h.handleOnlineUsersReq (some q) token name conn) := by
  refine ⟨?_, ?_, ?_, ?_, ?_, ?_, ?_⟩
  · intro h1 h0
    rw [handlePostMessageReq_cases]
    simp only [if_neg h0, if_pos h1]
  · intro h1
    rw [handleOnlineUsersReq_cases]
    simp only [if_pos h1]
  · intro h1
    rw [handleOnlineUsersReq_cases]
    simp only [if_neg h1]
  · rw [handlePostMessageReq_cases]
    split_ifs <;> rfl
  · rw [handleOnlineUsersReq_cases]
  · intro tk
    rw [handlePostMessageReq_cases, handlePostMessageReq_cases]
  · intro tk
    rw [handleOnlineUsersReq_cases, handleOnlineUsersReq_cases]

/-- Witness of C8 as amended: a connection with the unregistered token "t9"
is refused, even when its requests carry the registered token "t1"; the
connection of alice gets the roster, even when its request carries "t9". -/
theorem requests_authorized_by_connection_token_witness :
    (oneClient.handlePostMessageReq [] (some ⟨"t1", "hi"⟩) "t9" "" 9).sent =
        [(9, .post ⟨statusInvalidToken⟩)] ∧
      (oneClient.handleOnlineUsersReq (some ⟨"t1"⟩) "t9" "" 9).sent =
        [(9, .users ⟨statusInvalidToken, []⟩)] ∧
      (oneClient.handleOnlineUsersReq (some ⟨"t9"⟩) "t1" "alice" 1).sent =
        [(1, .users ⟨statusOk, ["alice"]⟩)] :=
  ⟨(requests_authorized_by_connection_token oneClient [] ⟨"t1", "hi"⟩ ⟨"t1"⟩ "t9" "" 9).1
      (by decide) (by decide),
    (requests_authorized_by_connection_token oneClient [] ⟨"t1", "hi"⟩ ⟨"t1"⟩ "t9" "" 9).2.1
      (by decide),
    (requests_authorized_by_connection_token oneClient [] ⟨"t1", "hi"⟩ ⟨"t9"⟩ "t1" "alice"
      1).2.2.1 (by decide)⟩

/-- C8 fails as stated: the logged in connection of alice sends a post and a
roster request whose token field "bogus" is no key of the registry; both are
answered ok, and the post is broadcast. -/
theorem request_token_field_not_checked :
    Load oneClient.clients "bogus" = none ∧
      (oneClient.Chat [] "t1" true 1 (.post (some ⟨"bogus", "hi"⟩))).out.sent =
        [(1, .post ⟨statusOk⟩), (1, .chat ⟨"alice", "hi", false⟩)] ∧
      (oneClient.Chat [] "t1" true 1 (.online (some ⟨"bogus"⟩))).out.sent =
        [(1, .users ⟨statusOk, ["alice"]⟩)] := by
  decide

/-- A login goroutine that takes its two steps with no other goroutine in
between does what `handleLoginReq` does to the registry, and builds the
response that `handleLoginReq` sends. -/
theorem LoginTask_two_steps (m : Clients) (token nick : String) (conn : Nat)
    (loggedIn : Bool) :
    ((LoginTask.step m ⟨token, conn, nick, .start⟩).2.step
        (LoginTask.step m ⟨token, conn, nick, .start⟩).1).1 =
        ((⟨m⟩ : Handler).handleLoginReq (some ⟨nick⟩) token loggedIn conn).2.h.clients ∧
      ∃ resp, ((LoginTask.step m ⟨token, conn, nick, .start⟩).2.step
          (LoginTask.step m ⟨token, conn, nick, .start⟩).1).2.pc = .done resp ∧
        ((⟨m⟩ : Handler).handleLoginReq (some ⟨nick⟩) token loggedIn conn).2.sent.getLast? =
          some (conn, .login resp) := by
  simp only [LoginTask.step, Handler.handleLoginReq]
  split_ifs <;> simp [send]

/-- C9, the failing schedule: two connections propose the unused name "bob";
both goroutines check the name before either stores. Both get status ok and
the registry holds "bob" twice. -/
theorem concurrent_logins_both_ok :
    (runLogins [] [⟨"t1", 1, "bob", .start⟩, ⟨"t2", 2, "bob", .start⟩] [0, 1, 0, 1]).1 =
        [("t1", ⟨"bob", 1⟩), ("t2", ⟨"bob", 2⟩)] ∧
      (runLogins [] [⟨"t1", 1, "bob", .start⟩, ⟨"t2", 2, "bob", .start⟩] [0, 1, 0, 1]).2 =
        [⟨"t1", 1, "bob", .done ⟨"t1", statusOk⟩⟩, ⟨"t2", 2, "bob", .done ⟨"t2", statusOk⟩⟩] ∧
      ¬ (names (runLogins [] [⟨"t1", 1, "bob", .start⟩, ⟨"t2", 2, "bob", .start⟩]
        [0, 1, 0, 1]).1).Nodup := by
  decide

/-- The same two logins one after the other: the first gets ok, the second
name taken. -/
theorem sequential_logins_one_ok :
    (runLogins [] [⟨"t1", 1, "bob", .start⟩, ⟨"t2", 2, "bob", .start⟩] [0, 0, 1, 1]).1 =
        [("t1", ⟨"bob", 1⟩)] ∧
      (runLogins [] [⟨"t1", 1, "bob", .start⟩, ⟨"t2", 2, "bob", .start⟩] [0, 0, 1, 1]).2 =
        [⟨"t1", 1, "bob", .done ⟨"t1", statusOk⟩⟩,
          ⟨"t2", 2, "bob", .done ⟨"", statusNameAlreadyTaken⟩⟩] := by
  decide


/-! ## Reachable server states -/

theorem step_closed (tok : Nat → String) (s : Server) (e : Event) (hc : e.conn ∈ s.closed) :
    Server.step tok s e = s := by
  simp only [Server.step, if_pos hc]

/-- What an event does to the registry and to the loop variables: nothing to
the registry, or the disconnect of a logged in connection, or the successful
login of a valid and unused name. -/
theorem step_effect (tok : Nat → String) (s : Server) (e : Event) (hc : e.conn ∉ s.closed) :
    ((Server.step tok s e).h = s.h ∧ (Server.step tok s e).loggedIn = s.loggedIn ∧
        s.closed ⊆ (Server.step tok s e).closed) ∨
      (e.conn ∈ s.loggedIn ∧
        (Server.step tok s e).h.clients = Delete s.h.clients (tok e.conn) ∧
        (Server.step tok s e).loggedIn = s.loggedIn ∧
        (Server.step tok s e).closed = e.conn :: s.closed) ∨
      (∃ nick, nick ∉ names s.h.clients ∧ nick ≠ "" ∧ len nick ≤ 20 ∧
        (Server.step tok s e).h.clients = Store s.h.clients (tok e.conn) ⟨nick, e.conn⟩ ∧
        (∀ c, c ∈ (Server.step tok s e).loggedIn ↔ c = e.conn ∨ c ∈ s.loggedIn) ∧
        (Server.step tok s e).closed = s.closed) := by
  obtain ⟨conn, rd, broken⟩ := e
  simp only at hc
  cases rd with
  | closed =>
    by_cases hl : conn ∈ s.loggedIn
    · right; left
      simp [Server.step, Server.iter, Handler.Chat, hc, hl, handleDisconnect_cases]
    · left
      simp [Server.step, Server.iter, Handler.Chat, hc, hl, handleDisconnect_cases]
  | post r =>
    left
    cases r with
    | none => simp [Server.step, Server.iter, Handler.Chat, hc, Handler.handlePostMessageReq]
    | some req =>
      simp only [Server.step, Server.iter, Handler.Chat, if_neg hc, handlePostMessageReq_cases]
      refine ⟨?_, ?_, ?_⟩
      · split_ifs <;> rfl
      · simp
      · simp
  | online r =>
    left
    cases r with
    | none => simp [Server.step, Server.iter, Handler.Chat, hc, Handler.handleOnlineUsersReq]
    | some req =>
      simp [Server.step, Server.iter, Handler.Chat, hc, handleOnlineUsersReq_cases]
  | unknown =>
    left
    simp [Server.step, Server.iter, Handler.Chat, hc]
  | login r =>
    cases r with
    | none =>
      left
      simp [Server.step, Server.iter, Handler.Chat, hc, Handler.handleLoginReq]
    | some req =>
      obtain ⟨nick⟩ := req
      simp only [Server.step, Server.iter, Handler.Chat, if_neg hc, handleLoginReq_cases]
      by_cases h1 : nick ∈ names s.h.clients
      · left
        simp only [if_pos h1]
        simp
      · by_cases h2 : nick = ""
        · left
          simp only [if_neg h1, if_pos h2]
          simp
        · by_cases h3 : 20 < len nick
          · left
            simp only [if_neg h1, if_neg h2, if_pos h3]
            simp
          · right; right
            refine ⟨nick, h1, h2, by omega, ?_⟩
            simp only [if_neg h1, if_neg h2, if_neg h3]
            refine ⟨trivial, ?_, ?_⟩
            · intro c
              by_cases hl : conn ∈ s.loggedIn
              · simp [hl]
                intro hcc
                exact hcc ▸ hl
              · simp [hl]
            · simp


theorem mem_keys_Delete (m : Clients) (k x : String) :
    x ∈ keys (Delete m k) ↔ x ∈ keys m ∧ x ≠ k := by
  rw [keys_Delete]
  simp

theorem mem_keys_Store (m : Clients) (k : String) (v : client) (x : String) :
    x ∈ keys (Store m k v) ↔ x ∈ keys m ∨ x = k := by
  have : keys (Store m k v) = keys (Delete m k) ++ [k] := by simp [Store, Delete, keys]
  rw [this, List.mem_append, mem_keys_Delete]
  by_cases hx : x = k <;> simp [hx]

theorem SInv_start (tok : Nat → String) : SInv tok Server.start := by
  refine ⟨⟨?_, ?_, ?_⟩, ?_, ?_⟩ <;> simp [Server.start, NewHandler, keys, names]

theorem SInv_step (tok : Nat → String) (s : Server) (e : Event) (h : SInv tok s) :
    SInv tok (Server.step tok s e) := by
  by_cases hc : e.conn ∈ s.closed
  · rw [step_closed tok s e hc]
    exact h
  · obtain ⟨hinv, hown, hrun⟩ := h
    rcases step_effect tok s e hc with ⟨h1, h2, h3⟩ | ⟨h0, h1, h2, h3⟩ | ⟨nick, hn1, hn2, hn3, h1, h2, h3⟩
    · refine ⟨?_, ?_, ?_⟩
      · rw [h1]; exact hinv
      · rw [h1, h2]; exact hown
      · intro htok c hcl hcc
        rw [h1]
        rw [h2] at hcl
        exact hrun htok c hcl (fun hx => hcc (h3 hx))
    · refine ⟨?_, ?_, ?_⟩
      · rw [h1]; exact Inv_Delete _ _ hinv
      · rw [h1, h2]
        intro x hx
        exact hown x ((mem_Delete _ _ _).mp hx).1
      · intro htok c hcl hcc
        rw [h1, mem_keys_Delete]
        rw [h2] at hcl
        rw [h3] at hcc
        have hne : c ≠ e.conn := fun hx => hcc (hx ▸ List.mem_cons_self _ _)
        refine ⟨hrun htok c hcl (fun hx => hcc (List.mem_cons_of_mem _ hx)), ?_⟩
        exact fun hx => hne (htok hx)
    · refine ⟨?_, ?_, ?_⟩
      · rw [h1]; exact Inv_Store _ _ _ hinv hn1 hn2 hn3
      · rw [h1]
        intro x hx
        rcases (mem_Store _ _ _ _).mp hx with hx1 | hx1
        · exact ⟨(hown x hx1.1).1, (h2 _).mpr (Or.inr (hown x hx1.1).2)⟩
        · subst hx1
          exact ⟨rfl, (h2 _).mpr (Or.inl rfl)⟩
      · intro htok c hcl hcc
        rw [h1, mem_keys_Store]
        rw [h3] at hcc
        rcases (h2 c).mp hcl with hx | hx
        · right; rw [hx]
        · left; exact hrun htok c hx hcc

theorem SInv_foldl (tok : Nat → String) (es : List Event) (s : Server) (h : SInv tok s) :
    SInv tok (es.foldl (Server.step tok) s) := by
  induction es generalizing s with
  | nil => exact h
  | cons e es ih => exact ih _ (SInv_step tok s e h)

theorem SInv_run (tok : Nat → String) (es : List Event) : SInv tok (Server.run tok es) :=
  SInv_foldl tok es _ (SInv_start tok)

/-- C2: in every server state reached from the empty registry by a sequence
of login, post, roster and disconnect events handled one after the other, on
any connections, no two registry entries have the same nickname (nor the same
token), and every registered nickname is non-empty and at most 20 long, in
bytes and so in characters. -/
theorem registry_unique_names (tok : Nat → String) (es : List Event) :
    (names (Server.run tok es).h.clients).Nodup ∧
      (keys (Server.run tok es).h.clients).Nodup ∧
      ∀ e ∈ (Server.run tok es).h.clients,
        e.2.nickname ≠ "" ∧ len e.2.nickname ≤ 20 ∧ e.2.nickname.length ≤ 20 := by
  obtain ⟨⟨hk, hn, hb⟩, _, _⟩ := SInv_run tok es
  refine ⟨hn, hk, ?_⟩
  intro e he
  have := length_le_len e.2.nickname
  exact ⟨(hb e he).1, (hb e he).2, by have := (hb e he).2; omega⟩


theorem sampleTok_injective : Function.Injective sampleTok := by
  intro a b hab
  have h1 : (sampleTok a).length = (sampleTok b).length := by rw [hab]
  simp only [sampleTok, String.length, List.length_replicate] at h1
  omega

theorem length_Delete (m : Clients) (k : String) (hk : (keys m).Nodup) (hmem : k ∈ keys m) :
    (Delete m k).length + 1 = m.length := by
  induction m with
  | nil => simp [keys] at hmem
  | cons e m ih =>
    have hnd : e.1 ∉ keys m ∧ (keys m).Nodup := by simpa [keys] using hk
    by_cases he : e.1 = k
    · have hnot : k ∉ keys m := he ▸ hnd.1
      have hsame : Delete m k = m := by
        unfold Delete
        rw [List.filter_eq_self]
        intro x hx
        have : x.1 ≠ k := fun hc => hnot (hc ▸ List.mem_map_of_mem (fun e => e.1) hx)
        simpa using this
      have : Delete (e :: m) k = Delete m k := by simp [Delete, List.filter_cons, he]
      rw [this, hsame]
      simp
    · have hin : k ∈ keys m := by
        have : k = e.1 ∨ k ∈ keys m := by simpa [keys] using hmem
        rcases this with h1 | h1
        · exact absurd h1.symm he
        · exact h1
      have : Delete (e :: m) k = e :: Delete m k := by simp [Delete, List.filter_cons, he]
      rw [this]
      simp only [List.length_cons]
      have := ih hnd.2 hin
      omega

theorem nick_not_in_Delete (m : Clients) (k : String) (cl : client) (hn : (names m).Nodup)
    (hmem : (k, cl) ∈ m) : cl.nickname ∉ names (Delete m k) := by
  intro hc
  obtain ⟨e, he, hen⟩ := List.mem_map.mp hc
  have he2 := (mem_Delete m k e).mp he
  have : e = (k, cl) := List.inj_on_of_nodup_map hn he2.1 hmem hen
  exact he2.2 (by rw [this])

theorem Chat_closed (h : Handler) (broken : List Nat) (token : String) (loggedIn : Bool)
    (conn : Nat) :
    h.Chat broken token loggedIn conn .closed =
      ⟨h.handleDisconnect token (h.nickname token) loggedIn conn, loggedIn, false⟩ := rfl

theorem Chat_login (h : Handler) (broken : List Nat) (r : Option loginReq) (token : String)
    (loggedIn : Bool) (conn : Nat) :
    h.Chat broken token loggedIn conn (.login r) =
      ⟨(h.handleLoginReq r token loggedIn conn).2, (h.handleLoginReq r token loggedIn conn).1,
        true⟩ := rfl

/-- The entry of a running, logged in connection. -/
theorem logged_in_entry (tok : Nat → String) (htok : Function.Injective tok) (s : Server)
    (hs : SInv tok s) (c : Nat) (hl : c ∈ s.loggedIn) (hc : c ∉ s.closed) :
    Load s.h.clients (tok c) = some ⟨s.h.nickname (tok c), c⟩ ∧
      (tok c, (⟨s.h.nickname (tok c), c⟩ : client)) ∈ s.h.clients := by
  have hkey := hs.2.2 htok c hl hc
  have hsome := (Load_isSome_iff s.h.clients (tok c)).mpr hkey
  obtain ⟨cl, hcl⟩ := Option.isSome_iff_exists.mp hsome
  have hmem := Load_mem _ _ _ hcl
  have hconn : cl.conn = c := htok (hs.2.1 _ hmem).1
  have hnick : s.h.nickname (tok c) = cl.nickname := by simp [Handler.nickname, hcl]
  have hcl2 : cl = ⟨s.h.nickname (tok c), c⟩ := by
    cases cl
    simp_all
  rw [hcl2] at hcl hmem
  exact ⟨hcl, hmem⟩

/-- Disconnect in a server state reached by handling events one after the
other: when the connection `c` of a logged in session with nickname `n`
closes, exactly the entry of `c` leaves the registry, and then every remaining
client is sent the system message "n left the chat" and after it the roster
of the remaining nicknames, which does not hold `n`; when the session never
logged in, nothing is sent and the registry stays as it is. -/
theorem disconnect_effect (tok : Nat → String) (htok : Function.Injective tok)
    (es : List Event) (s : Server) (hs : s = Server.run tok es) (c : Nat) (broken : List Nat)
    (n : String) (hn : n = s.h.nickname (tok c)) :
    (c ∈ s.loggedIn → c ∉ s.closed →
        Load s.h.clients (tok c) = some ⟨n, c⟩ ∧
        (s.iter tok ⟨c, .closed, broken⟩).out.h.clients = Delete s.h.clients (tok c) ∧
        (∀ e, e ∈ Delete s.h.clients (tok c) ↔ e ∈ s.h.clients ∧ e ≠ (tok c, ⟨n, c⟩)) ∧
        (Delete s.h.clients (tok c)).length + 1 = s.h.clients.length ∧
        Load (Delete s.h.clients (tok c)) (tok c) = none ∧
        (s.iter tok ⟨c, .closed, broken⟩).out.sent =
          (Delete s.h.clients (tok c)).map
              (fun e => (e.2.conn, Payload.chat ⟨"", n ++ " left the chat", true⟩)) ++
            (Delete s.h.clients (tok c)).map
              (fun e => (e.2.conn,
                Payload.users ⟨statusOk, names (Delete s.h.clients (tok c))⟩)) ∧
        n ∉ names (Delete s.h.clients (tok c))) ∧
      (c ∉ s.loggedIn → (s.iter tok ⟨c, .closed, broken⟩).out = ⟨s.h, []⟩) := by
  have hinv : SInv tok s := hs ▸ SInv_run tok es
  constructor
  · intro hl hc
    obtain ⟨hload, hmem⟩ := logged_in_entry tok htok s hinv c hl hc
    rw [← hn] at hload hmem
    have hd : decide (c ∈ s.loggedIn) = true := by simpa using hl
    refine ⟨hload, ?_, ?_, ?_, Load_Delete _ _, ?_, ?_⟩
    · simp only [Server.iter, Chat_closed, handleDisconnect_cases, hd, if_true]
    · intro e
      rw [mem_Delete]
      constructor
      · rintro ⟨h1, h2⟩
        exact ⟨h1, fun hx => h2 (by rw [hx])⟩
      · rintro ⟨h1, h2⟩
        refine ⟨h1, fun hx => h2 ?_⟩
        have hk := hinv.1.1
        exact List.inj_on_of_nodup_map hk h1 hmem hx
    · exact length_Delete _ _ hinv.1.1 (List.mem_map_of_mem (fun e => e.1) hmem)
    · simp only [Server.iter, Chat_closed, handleDisconnect_cases, hd, if_true, ← hn]
    · exact nick_not_in_Delete _ _ ⟨n, c⟩ hinv.1.2.1 hmem
  · intro hl
    have hd : decide (c ∈ s.loggedIn) = false := by simpa using hl
    simp only [Server.iter, Chat_closed, handleDisconnect_cases, hd, Bool.false_eq_true,
      if_false]

/-- With alice and bob logged in one after the other, alice disconnects and
bob is sent the two messages; a connection that never logged in disconnects
silently. -/
theorem disconnect_effect_witness :
    ((Server.run sampleTok twoLogins).iter sampleTok ⟨0, .closed, []⟩).out.sent =
        [(1, .chat ⟨"", "alice left the chat", true⟩), (1, .users ⟨statusOk, ["bob"]⟩)] ∧
      ((Server.run sampleTok twoLogins).iter sampleTok ⟨5, .closed, []⟩).out =
        ⟨(Server.run sampleTok twoLogins).h, []⟩ :=
  ⟨((disconnect_effect sampleTok sampleTok_injective twoLogins _ rfl 0 [] "alice"
      (by decide)).1 (by decide) (by decide)).2.2.2.2.2.1,
    (disconnect_effect sampleTok sampleTok_injective twoLogins _ rfl 5 [] ""
      (by decide)).2 (by decide)⟩


theorem not_registered_of_long (m : Clients) (hinv : Inv m) (nick : String)
    (h : 20 < len nick) : nick ∉ names m := by
  intro hc
  obtain ⟨e, he, hen⟩ := List.mem_map.mp hc
  have := (hinv.2.2 e he).2
  rw [hen] at this
  omega

theorem empty_not_registered (m : Clients) (hinv : Inv m) : "" ∉ names m := by
  intro hc
  obtain ⟨e, he, hen⟩ := List.mem_map.mp hc
  exact (hinv.2.2 e he).1 hen

/-- C7, as amended: the limits on the name are counted in bytes of its UTF-8
encoding. In every reachable server state a login with the empty name is
answered name empty; a login with a name of 21 characters is answered name
too long; a login with a name of 20 characters that no client holds is
answered ok, and registered, when the name has 20 bytes, and a name of 20
characters with more than 20 bytes is answered name too long. -/
theorem login_limits_in_bytes (tok : Nat → String) (es : List Event) (s : Server)
    (hs : s = Server.run tok es) (token nick : String) (loggedIn : Bool) (conn : Nat) :
    (s.h.handleLoginReq (some ⟨""⟩) token loggedIn conn).2 =
        ⟨s.h, [(conn, .login ⟨"", statusNameIsEmpty⟩)]⟩ ∧
      (nick.length = 21 →
        (s.h.handleLoginReq (some ⟨nick⟩) token loggedIn conn).2 =
          ⟨s.h, [(conn, .login ⟨"", statusNameIsTooLong⟩)]⟩) ∧
      (nick.length = 20 → (∀ e ∈ s.h.clients, e.2.nickname ≠ nick) → len nick = 20 →
        (s.h.handleLoginReq (some ⟨nick⟩) token loggedIn conn).2.sent.filter isLoginResp =
            [(conn, .login ⟨token, statusOk⟩)] ∧
          Load (s.h.handleLoginReq (some ⟨nick⟩) token loggedIn conn).2.h.clients token =
            some ⟨nick, conn⟩) ∧
      (nick.length = 20 → 20 < len nick →
        (s.h.handleLoginReq (some ⟨nick⟩) token loggedIn conn).2 =
          ⟨s.h, [(conn, .login ⟨"", statusNameIsTooLong⟩)]⟩) := by
  have hinv : Inv s.h.clients := (hs ▸ SInv_run tok es).1
  have hlong : ∀ x : String, 20 < len x →
      (s.h.handleLoginReq (some ⟨x⟩) token loggedIn conn).2 =
        ⟨s.h, [(conn, .login ⟨"", statusNameIsTooLong⟩)]⟩ := by
    intro x hx
    have h1 := not_registered_of_long _ hinv x hx
    have h2 : x ≠ "" := fun hc => by
      rw [hc] at hx
      have : len "" = 0 := rfl
      omega
    rw [handleLoginReq_cases]
    simp only [if_neg h1, if_neg h2, if_pos hx]
  refine ⟨?_, ?_, ?_, ?_⟩
  · rw [handleLoginReq_cases]
    simp only [if_neg (empty_not_registered _ hinv), if_true]
  · intro h21
    have := length_le_len nick
    exact hlong nick (by omega)
  · intro h20 hfree hlen
    have h1 : nick ∉ names s.h.clients := by
      intro hc
      obtain ⟨e, he, hen⟩ := List.mem_map.mp hc
      exact hfree e he hen
    have h2 : nick ≠ "" := fun hc => by
      rw [hc] at h20
      exact absurd h20 (by decide)
    have h3 : ¬ 20 < len nick := by omega
    rw [handleLoginReq_cases]
    simp only [if_neg h1, if_neg h2, if_neg h3]
    simp [isLoginResp, List.filter_append, filter_isLoginResp_map_chat,
      filter_isLoginResp_map_users, Load_Store]
  · intro _ hlen
    exact hlong nick hlen

/-- Witness of C7 as amended, next to alice and bob: a name of 21 letters,
a name of 20 letters, and a name of 20 two-byte characters. -/
theorem login_limits_in_bytes_witness :
    ((Server.run sampleTok twoLogins).h.handleLoginReq (some ⟨name21⟩) "t" false 7).2 =
        ⟨(Server.run sampleTok twoLogins).h, [(7, .login ⟨"", statusNameIsTooLong⟩)]⟩ ∧
      Load ((Server.run sampleTok twoLogins).h.handleLoginReq (some ⟨name20⟩) "t" false
        7).2.h.clients "t" = some ⟨name20, 7⟩ ∧
      ((Server.run sampleTok twoLogins).h.handleLoginReq (some ⟨wideName⟩) "t" false 7).2 =
        ⟨(Server.run sampleTok twoLogins).h, [(7, .login ⟨"", statusNameIsTooLong⟩)]⟩ :=
  ⟨(login_limits_in_bytes sampleTok twoLogins _ rfl "t" name21 false 7).2.1 (by decide),
    ((login_limits_in_bytes sampleTok twoLogins _ rfl "t" name20 false 7).2.2.1 (by decide)
      (by decide) (by decide)).2,
    (login_limits_in_bytes sampleTok twoLogins _ rfl "t" wideName false 7).2.2.2 (by decide)
      (by decide)⟩

/-- C7 fails as stated: a name of exactly 20 characters that nobody holds,
made of two-byte characters, is answered name too long, and nothing is
registered. -/
theorem login_20_wide_characters_rejected :
    wideName.length = 20 ∧ (∀ e ∈ NewHandler.clients, e.2.nickname ≠ wideName) ∧
      NewHandler.handleLoginReq (some ⟨wideName⟩) "t1" false 1 =
        (false, ⟨NewHandler, [(1, .login ⟨"", statusNameIsTooLong⟩)]⟩) := by
  decide


/-- No "joined" message is a "left" message. -/
theorem joined_ne_left (m n : String) : m ++ " joined the chat" ≠ n ++ " left the chat" := by
  intro hc
  have h1 : (m ++ " joined the chat").data.reverse = (n ++ " left the chat").data.reverse := by
    rw [hc]
  rw [String.data_append, String.data_append, List.reverse_append, List.reverse_append] at h1
  have h2 := congrArg (List.take 10) h1
  rw [List.take_append_of_le_length (by decide), List.take_append_of_le_length (by decide)] at h2
  exact absurd h2 (by decide)

theorem filter_isChatMsg_map_users (m : Clients) (c : onlineUsers) :
    (m.map (fun e => (e.2.conn, Payload.users c))).filter isChatMsg = [] := by
  induction m with
  | nil => rfl
  | cons e m ih => simpa [List.filter_cons, isChatMsg] using ih

theorem filter_isOnlineUsers_map_users (m : Clients) (c : onlineUsers) :
    (m.map (fun e => (e.2.conn, Payload.users c))).filter isOnlineUsers =
      m.map (fun e => (e.2.conn, Payload.users c)) := by
  induction m with
  | nil => rfl
  | cons e m ih => simpa [List.filter_cons, isOnlineUsers] using ih

theorem filter_isOnlineUsers_map_chat (m : Clients) (c : chatMsgToClient) :
    (m.map (fun e => (e.2.conn, Payload.chat c))).filter isOnlineUsers = [] := by
  induction m with
  | nil => rfl
  | cons e m ih => simpa [List.filter_cons, isOnlineUsers] using ih

/-- Login of a logged in session, in a server state reached by handling
events one after the other: a running session registered under its token with
nickname `n` sends a login request. With its own nickname `n` the answer is
name taken and nothing changes. With another nickname `m`, valid and held by
nobody, the answer is ok with the same token; the entry of the token now
holds `m`, the registry has as many entries as before and `n` is registered
no more; every client is sent "m joined the chat" and the roster, and no
"n left the chat" message is sent. Whatever the request, `loggedIn` is true
afterwards. -/
theorem relogin_effect (tok : Nat → String) (htok : Function.Injective tok)
    (es : List Event) (s : Server) (hs : s = Server.run tok es) (c : Nat) (broken : List Nat)
    (n : String) (cn : Nat) (hc : c ∉ s.closed)
    (hreg : Load s.h.clients (tok c) = some ⟨n, cn⟩) :
    (s.iter tok ⟨c, .login (some ⟨n⟩), broken⟩).out =
        ⟨s.h, [(c, .login ⟨"", statusNameAlreadyTaken⟩)]⟩ ∧
      (∀ m, m ≠ "" → len m ≤ 20 → (∀ e ∈ s.h.clients, e.2.nickname ≠ m) →
        (s.iter tok ⟨c, .login (some ⟨m⟩), broken⟩).out.sent.filter isLoginResp =
            [(c, .login ⟨tok c, statusOk⟩)] ∧
          (s.iter tok ⟨c, .login (some ⟨m⟩), broken⟩).out.h.clients =
            Store s.h.clients (tok c) ⟨m, c⟩ ∧
          Load (Store s.h.clients (tok c) ⟨m, c⟩) (tok c) = some ⟨m, c⟩ ∧
          (Store s.h.clients (tok c) ⟨m, c⟩).length = s.h.clients.length ∧
          n ∉ names (Store s.h.clients (tok c) ⟨m, c⟩) ∧
          (s.iter tok ⟨c, .login (some ⟨m⟩), broken⟩).out.sent.filter isChatMsg =
            (Store s.h.clients (tok c) ⟨m, c⟩).map
              (fun e => (e.2.conn, Payload.chat ⟨"", m ++ " joined the chat", true⟩)) ∧
          (s.iter tok ⟨c, .login (some ⟨m⟩), broken⟩).out.sent.filter isOnlineUsers =
            (Store s.h.clients (tok c) ⟨m, c⟩).map
              (fun e => (e.2.conn,
                Payload.users ⟨statusOk, names (Store s.h.clients (tok c) ⟨m, c⟩)⟩)) ∧
          ∀ x ∈ (s.iter tok ⟨c, .login (some ⟨m⟩), broken⟩).out.sent,
            x.2 ≠ Payload.chat ⟨"", n ++ " left the chat", true⟩) ∧
      (∀ r, (s.iter tok ⟨c, .login r, broken⟩).loggedIn = true) := by
  have hinv : SInv tok s := hs ▸ SInv_run tok es
  have hmem := Load_mem _ _ _ hreg
  have hcn : cn = c := htok (hinv.2.1 _ hmem).1
  subst hcn
  have hl : cn ∈ s.loggedIn := (hinv.2.1 _ hmem).2
  have hd : decide (cn ∈ s.loggedIn) = true := by simpa using hl
  have hnin : n ∈ names s.h.clients := List.mem_map.mpr ⟨_, hmem, rfl⟩
  refine ⟨?_, ?_, ?_⟩
  · simp only [Server.iter, Chat_login, handleLoginReq_cases, if_pos hnin]
  · intro m hm1 hm2 hfree
    have h1 : m ∉ names s.h.clients := by
      intro hx
      obtain ⟨e, he, hen⟩ := List.mem_map.mp hx
      exact hfree e he hen
    have h3 : ¬ 20 < len m := by omega
    simp only [Server.iter, Chat_login, handleLoginReq_cases, if_neg h1, if_neg hm1, if_neg h3]
    refine ⟨?_, trivial, Load_Store _ _ _, ?_, ?_, ?_, ?_, ?_⟩
    · simp [isLoginResp, List.filter_append, filter_isLoginResp_map_chat,
        filter_isLoginResp_map_users]
    · have := length_Delete _ _ hinv.1.1 (List.mem_map_of_mem (fun e => e.1) hmem)
      simp only [Store, List.length_append, List.length_singleton]
      exact this
    · rw [names_Store, List.mem_append]
      rintro (hx | hx)
      · exact nick_not_in_Delete _ _ ⟨n, cn⟩ hinv.1.2.1 hmem hx
      · have : n = m := by simpa using hx
        exact h1 (this ▸ hnin)
    · simp [isChatMsg, List.filter_append, filter_isChatMsg_map_chat,
        filter_isChatMsg_map_users]
    · simp [isOnlineUsers, List.filter_append, filter_isOnlineUsers_map_chat,
        filter_isOnlineUsers_map_users]
    · intro x hx
      simp only [List.mem_append, List.mem_map, List.mem_singleton] at hx
      rcases hx with (⟨e, _, rfl⟩ | ⟨e, _, rfl⟩) | rfl
      · intro hx2
        have : m ++ " joined the chat" = n ++ " left the chat" := by
          simpa using hx2
        exact joined_ne_left m n this
      · simp
      · simp
  · intro r
    cases r with
    | none => simp only [Server.iter, Chat_login, Handler.handleLoginReq, hd]
    | some req =>
      obtain ⟨x⟩ := req
      simp only [Server.iter, Chat_login, handleLoginReq_cases, hd]
      split_ifs <;> rfl

/-- Alice, logged in on connection 0 after sequential logins, asks for the
names "alice" and then "carol". -/
theorem relogin_effect_witness :
    ((Server.run sampleTok twoLogins).iter sampleTok ⟨0, .login (some ⟨"alice"⟩), []⟩).out =
        ⟨(Server.run sampleTok twoLogins).h, [(0, .login ⟨"", statusNameAlreadyTaken⟩)]⟩ ∧
      ((Server.run sampleTok twoLogins).iter sampleTok
          ⟨0, .login (some ⟨"carol"⟩), []⟩).out.sent.filter isLoginResp =
        [(0, .login ⟨"t", statusOk⟩)] ∧
      "alice" ∉ names ((Server.run sampleTok twoLogins).iter sampleTok
          ⟨0, .login (some ⟨"carol"⟩), []⟩).out.h.clients :=
  ⟨(relogin_effect sampleTok sampleTok_injective twoLogins _ rfl 0 [] "alice" 0 (by decide)
      (by decide)).1,
    ((relogin_effect sampleTok sampleTok_injective twoLogins _ rfl 0 [] "alice" 0
      (by decide) (by decide)).2.1 "carol" (by decide) (by decide) (by decide)).1,
    ((relogin_effect sampleTok sampleTok_injective twoLogins _ rfl 0 [] "alice" 0
      (by decide) (by decide)).2.1 "carol" (by decide) (by decide) (by decide)).2.2.2.2.1⟩

/-! ## Disconnect and login after the login race -/

/-- C5, the failing input: after the two concurrent logins as "bob", the
logged in connection 1 (token "t1", nickname "bob") closes. Its entry is
removed and connection 2 is sent "bob left the chat", but the roster sent
after it still contains "bob". -/
theorem disconnect_after_race_roster_keeps_name :
    raced.clients = [("t1", ⟨"bob", 1⟩), ("t2", ⟨"bob", 2⟩)] ∧
      raced.nickname "t1" = "bob" ∧
      (raced.Chat [] "t1" true 1 .closed).out =
        ⟨⟨[("t2", ⟨"bob", 2⟩)]⟩,
          [(2, .chat ⟨"", "bob left the chat", true⟩), (2, .users ⟨statusOk, ["bob"]⟩)]⟩ ∧
      "bob" ∈ names (raced.Chat [] "t1" true 1 .closed).out.h.clients := by
  decide

/-- C10, the failing input: after the two concurrent logins as "bob", the
logged in connection 1 (token "t1", nickname "bob") sends a login request
for the unused name "carol". It is answered ok with token "t1" and its entry
now holds "carol", but "bob" is still registered, under "t2". -/
theorem relogin_after_race_old_name_stays :
    raced.clients = [("t1", ⟨"bob", 1⟩), ("t2", ⟨"bob", 2⟩)] ∧
      (raced.Chat [] "t1" true 1 (.login (some ⟨"carol"⟩))).out.h.clients =
        [("t2", ⟨"bob", 2⟩), ("t1", ⟨"carol", 1⟩)] ∧
      (raced.Chat [] "t1" true 1 (.login (some ⟨"carol"⟩))).out.sent.filter isLoginResp =
        [(1, .login ⟨"t1", statusOk⟩)] ∧
      (raced.Chat [] "t1" true 1 (.login (some ⟨"carol"⟩))).loggedIn = true ∧
      "bob" ∈ names (raced.Chat [] "t1" true 1 (.login (some ⟨"carol"⟩))).out.h.clients := by
  decide

end chat
